import Mathlib

/-!
Verification of the session-telemetry pipeline of the `interceptor`
repository (Vibe Logger): the redactor (`Logger.sanitize` in
`src/logger.js`), the console logger (`Logger.logConsole`), session
finalization (`Logger.endSession`), the trace summarizer
(`TraceCleaner.process` in `src/trace_cleaner.js`) and the stop
orchestration (`nodeStopRecording` in the orchestrator source).

JavaScript values are embedded shallowly: JSON-like data as the mutual
inductive `Js`/`JsList`/`JsObj` (JS `undefined` inside records behaves
like `null` for every code path modelled here and is folded into
`Js.null`), machine numbers as `ℚ` (the source only performs exact
decimal arithmetic on the inputs the claims speak about; IEEE-754
rounding is outside the model), and fallible operations as `Except`
(`Except.error ()` models an uncaught JavaScript exception) or
`Option`.
-/

mutual
/-- JSON-like JavaScript value (acyclic), as consumed by `Logger.sanitize`. -/
inductive Js where
  | null
  | bool (b : Bool)
  | num (q : ℚ)
  | str (s : String)
  | arr (l : JsList)
  | obj (o : JsObj)

/-- Ordered sequence of JSON values (a JS array). -/
inductive JsList where
  | nil
  | cons (head : Js) (tail : JsList)

/-- Keyed record (a JS object): ordered key/value entries, keys unique
as produced by `JSON.parse` / object literals. -/
inductive JsObj where
  | nil
  | cons (k : String) (v : Js) (tail : JsObj)
end

/-- Combined induction principle for the mutual inductive `Js`,
`JsList`, `JsObj`, packaged from the auto-generated recursors. -/
theorem js_mutual_ind (P : Js → Prop) (Q : JsList → Prop) (R : JsObj → Prop)
    (h1 : P Js.null) (h2 : ∀ b, P (Js.bool b)) (h3 : ∀ q, P (Js.num q))
    (h4 : ∀ s, P (Js.str s))
    (h5 : ∀ l, Q l → P (Js.arr l)) (h6 : ∀ o, R o → P (Js.obj o))
    (h7 : Q JsList.nil) (h8 : ∀ x l, P x → Q l → Q (JsList.cons x l))
    (h9 : R JsObj.nil) (h10 : ∀ k v o, P v → R o → R (JsObj.cons k v o)) :
    (∀ j, P j) ∧ (∀ l, Q l) ∧ (∀ o, R o) :=
  ⟨fun j => @Js.rec P Q R h1 h2 h3 h4 h5 h6 h7 h8 h9 h10 j,
   fun l => @JsList.rec P Q R h1 h2 h3 h4 h5 h6 h7 h8 h9 h10 l,
   fun o => @JsObj.rec P Q R h1 h2 h3 h4 h5 h6 h7 h8 h9 h10 o⟩

/-- JS `value === null` (with `undefined` folded into `null`, see module
doc). -/
def isNullJs : Js → Bool
  | Js.null => true
  | _ => false

/-- JS `typeof value === 'object'`: true for `null`, arrays and
objects, false for booleans, numbers and strings. -/
def typeofIsObject : Js → Bool
  | Js.null => true
  | Js.arr _ => true
  | Js.obj _ => true
  | _ => false

/-- JS truthiness of a JSON value (`NaN` does not arise from parsed
JSON and is not modelled). -/
def truthy : Js → Bool
  | Js.null => false
  | Js.bool b => b
  | Js.num q => !(q == 0)
  | Js.str s => !(s == "")
  | Js.arr _ => true
  | Js.obj _ => true

/-- Leading-match test on character lists: the first list is a prefix
of the second. -/
def leadMatch : List Char → List Char → Bool
  | [], _ => true
  | _ :: _, [] => false
  | a :: as, b :: bs => a == b && leadMatch as bs

/-- Substring occurrence test on character lists. -/
def hasSubList (pat : List Char) : List Char → Bool
  | [] => leadMatch pat []
  | c :: cs => leadMatch pat (c :: cs) || hasSubList pat cs

/-- JS `s.includes(pat)`: substring containment. -/
def strIncludes (s pat : String) : Bool := hasSubList pat.toList s.toList

/-- JS `s.toLowerCase()` (ASCII case mapping; the sensitive-key list is
ASCII). -/
def strLower (s : String) : String := String.mk (s.toList.map Char.toLower)

/-- The `SENSITIVE_KEYS` constant of `src/logger.js`. -/
def SENSITIVE_KEYS : List String :=
  ["password", "token", "auth", "secret", "key", "credential",
   "authorization", "apikey", "api_key"]

/-- The `REDACTED` constant of `src/logger.js`. -/
def REDACTED : String := "***REDACTED***"

/-- The sensitivity test of `Logger.sanitize`: the lower-cased key
contains some sensitive substring. -/
def isSensitiveKey (k : String) : Bool :=
  SENSITIVE_KEYS.any (fun sk => strIncludes (strLower k) sk)

mutual
/-- `Logger.sanitize` of `src/logger.js`: identity on `null`, strings
and other primitives, element-wise on arrays, and key-wise on objects
(see `sanitizeObj`). -/
def sanitize : Js → Js
  | Js.null => Js.null
  | Js.bool b => Js.bool b
  | Js.num q => Js.num q
  | Js.str s => Js.str s
  | Js.arr l => Js.arr (sanitizeList l)
  | Js.obj o => Js.obj (sanitizeObj o)

/-- The `data.map(item => this.sanitize(item))` branch of
`Logger.sanitize`. -/
def sanitizeList : JsList → JsList
  | JsList.nil => JsList.nil
  | JsList.cons x l => JsList.cons (sanitize x) (sanitizeList l)

/-- The object-rebuilding loop of `Logger.sanitize`: a sensitive key
with non-null value is replaced by the marker; otherwise an
object-typed value (which includes `null`!) is recursed into; other
values are copied unchanged. -/
def sanitizeObj : JsObj → JsObj
  | JsObj.nil => JsObj.nil
  | JsObj.cons k v o =>
    if isSensitiveKey k && !(isNullJs v) then
      JsObj.cons k (Js.str REDACTED) (sanitizeObj o)
    else if typeofIsObject v then
      JsObj.cons k (sanitize v) (sanitizeObj o)
    else
      JsObj.cons k v (sanitizeObj o)
end

/-- Whether a value is exactly the redaction marker string. -/
def isRedactedStr : Js → Bool
  | Js.str s => s == REDACTED
  | _ => false

mutual
/-- Deep redaction check exactly as claimed: in every record at any
nesting depth, every sensitive key maps to the redaction marker. -/
def fullyRedacted : Js → Bool
  | Js.arr l => fullyRedactedList l
  | Js.obj o => fullyRedactedObj o
  | _ => true

/-- `fullyRedacted` over array elements. -/
def fullyRedactedList : JsList → Bool
  | JsList.nil => true
  | JsList.cons x l => fullyRedacted x && fullyRedactedList l

/-- `fullyRedacted` over record entries. -/
def fullyRedactedObj : JsObj → Bool
  | JsObj.nil => true
  | JsObj.cons k v o =>
    (!isSensitiveKey k || isRedactedStr v) && fullyRedacted v && fullyRedactedObj o
end

mutual
/-- Deep redaction check as the code actually guarantees it: every
sensitive key maps to the redaction marker or to `null` (the source
only redacts non-null values). -/
def redactedOrNull : Js → Bool
  | Js.arr l => redactedOrNullList l
  | Js.obj o => redactedOrNullObj o
  | _ => true

/-- `redactedOrNull` over array elements. -/
def redactedOrNullList : JsList → Bool
  | JsList.nil => true
  | JsList.cons x l => redactedOrNull x && redactedOrNullList l

/-- `redactedOrNull` over record entries. -/
def redactedOrNullObj : JsObj → Bool
  | JsObj.nil => true
  | JsObj.cons k v o =>
    (!isSensitiveKey k || isRedactedStr v || isNullJs v) &&
      redactedOrNull v && redactedOrNullObj o
end

/-- Sanitizing an array yields an array, an object an object, and
`null` stays `null`; hence the `typeof value === 'object'` test is
stable under sanitization. -/
theorem typeofIsObject_sanitize (v : Js) :
    typeofIsObject (sanitize v) = typeofIsObject v := by
  cases v <;> rfl

/-- A sanitized value is never exactly `null` unless the input was. -/
theorem isNullJs_sanitize (v : Js) : isNullJs (sanitize v) = isNullJs v := by
  cases v <;> rfl

/-- A value whose `isNullJs` test succeeds is `null`. -/
theorem eq_null_of_isNullJs {v : Js} (h : isNullJs v = true) : v = Js.null := by
  cases v <;> simp [isNullJs] at h ⊢

/-- Branch equation: sensitive key with non-null value is redacted. -/
theorem sanitizeObj_cons_redact {k : String} {v : Js} {o : JsObj}
    (hk : isSensitiveKey k = true) (hn : isNullJs v = false) :
    sanitizeObj (JsObj.cons k v o) =
      JsObj.cons k (Js.str REDACTED) (sanitizeObj o) := by
  simp only [sanitizeObj]
  rw [if_pos (by simp [hk, hn])]

/-- Branch equation: non-redacted object-typed value is recursed into. -/
theorem sanitizeObj_cons_recurse {k : String} {v : Js} {o : JsObj}
    (h : (isSensitiveKey k && !(isNullJs v)) = false)
    (ht : typeofIsObject v = true) :
    sanitizeObj (JsObj.cons k v o) = JsObj.cons k (sanitize v) (sanitizeObj o) := by
  simp only [sanitizeObj]
  rw [if_neg (by simp [h]), if_pos ht]

/-- Branch equation: non-redacted primitive value is copied unchanged. -/
theorem sanitizeObj_cons_copy {k : String} {v : Js} {o : JsObj}
    (h : (isSensitiveKey k && !(isNullJs v)) = false)
    (ht : typeofIsObject v = false) :
    sanitizeObj (JsObj.cons k v o) = JsObj.cons k v (sanitizeObj o) := by
  simp only [sanitizeObj]
  rw [if_neg (by simp [h]), if_neg (by simp [ht])]

/-- Idempotence of the redactor, simultaneously over values, arrays and
records. -/
theorem sanitize_idem_all :
    (∀ j, sanitize (sanitize j) = sanitize j) ∧
    (∀ l, sanitizeList (sanitizeList l) = sanitizeList l) ∧
    (∀ o, sanitizeObj (sanitizeObj o) = sanitizeObj o) := by
  refine js_mutual_ind _ _ _ rfl (fun b => rfl) (fun q => rfl) (fun s => rfl)
    ?_ ?_ rfl ?_ rfl ?_
  · intro l hl
    simp only [sanitize]
    rw [hl]
  · intro o ho
    simp only [sanitize]
    rw [ho]
  · intro x l hx hl
    simp only [sanitizeList]
    rw [hx, hl]
  · intro k v o hv ho
    by_cases hk : isSensitiveKey k = true
    · by_cases hn : isNullJs v = true
      · -- sensitive key but null value: the code recurses (typeof null is object)
        have hv0 : v = Js.null := eq_null_of_isNullJs hn
        subst hv0
        rw [sanitizeObj_cons_recurse (by simp [isNullJs]) (by rfl)]
        rw [sanitizeObj_cons_recurse (by simp [isNullJs, sanitize]) (by simp [sanitize, typeofIsObject])]
        rw [ho]
        rfl
      · rw [sanitizeObj_cons_redact hk (by simp at hn; simp [hn])]
        rw [sanitizeObj_cons_redact hk (by simp [isNullJs])]
        rw [ho]
    · have hk' : isSensitiveKey k = false := by simpa using hk
      by_cases ht : typeofIsObject v = true
      · rw [sanitizeObj_cons_recurse (by simp [hk']) ht]
        rw [sanitizeObj_cons_recurse (by simp [hk'])
          (by rw [typeofIsObject_sanitize]; exact ht)]
        rw [hv, ho]
      · have ht' : typeofIsObject v = false := by simpa using ht
        rw [sanitizeObj_cons_copy (by simp [hk']) ht']
        rw [sanitizeObj_cons_copy (by simp [hk']) ht']
        rw [ho]

/-- A redacted string value passes every redaction check. -/
theorem redactedOrNull_marker : redactedOrNull (Js.str REDACTED) = true := rfl

/-- Redaction coverage with the null escape: sanitization establishes
`redactedOrNull` everywhere, simultaneously for values, arrays and
records. -/
theorem sanitize_redactedOrNull_all :
    (∀ j, redactedOrNull (sanitize j) = true) ∧
    (∀ l, redactedOrNullList (sanitizeList l) = true) ∧
    (∀ o, redactedOrNullObj (sanitizeObj o) = true) := by
  refine js_mutual_ind _ _ _ rfl (fun b => rfl) (fun q => rfl) (fun s => rfl)
    ?_ ?_ rfl ?_ rfl ?_
  · intro l hl
    simp only [sanitize, redactedOrNull]
    exact hl
  · intro o ho
    simp only [sanitize, redactedOrNull]
    exact ho
  · intro x l hx hl
    simp only [sanitizeList, redactedOrNullList]
    rw [hx, hl]
    rfl
  · intro k v o hv ho
    by_cases hk : isSensitiveKey k = true
    · by_cases hn : isNullJs v = true
      · have hv0 : v = Js.null := eq_null_of_isNullJs hn
        subst hv0
        rw [sanitizeObj_cons_recurse (by simp [isNullJs]) (by rfl)]
        simp only [redactedOrNullObj, sanitize, isNullJs]
        simp [ho, redactedOrNull]
      · rw [sanitizeObj_cons_redact hk (by simpa using hn)]
        simp only [redactedOrNullObj, isRedactedStr]
        simp [ho, redactedOrNull]
    · have hk' : isSensitiveKey k = false := by simpa using hk
      by_cases ht : typeofIsObject v = true
      · rw [sanitizeObj_cons_recurse (by simp [hk']) ht]
        simp only [redactedOrNullObj, hk']
        simp [hv, ho]
      · have ht' : typeofIsObject v = false := by simpa using ht
        rw [sanitizeObj_cons_copy (by simp [hk']) ht']
        simp only [redactedOrNullObj, hk']
        have hv' : redactedOrNull v = true := by
          cases v <;> simp [redactedOrNull] at ht' ⊢ <;> simp [typeofIsObject] at ht'
        simp [hv', ho]

/-- C1 (claim as frozen, to be refuted): sanitization would leave every
sensitive key bound to the redaction marker at every depth. The record
`{"password": null}` survives sanitization unchanged, because the
source only redacts non-null values. -/
theorem sanitize_password_null_counterexample :
    sanitize (Js.obj (JsObj.cons "password" Js.null JsObj.nil)) =
      Js.obj (JsObj.cons "password" Js.null JsObj.nil) ∧
    fullyRedacted (sanitize (Js.obj (JsObj.cons "password" Js.null JsObj.nil))) = false ∧
    isSensitiveKey "password" = true := by
  refine ⟨rfl, by decide, by decide⟩

/-- C1 (amended): in the output of `sanitize`, at every nesting depth,
every key whose lower-cased form contains a sensitive substring is
bound to the fixed redaction marker or to `null` (the latter exactly
when the input value was null/undefined, which the source leaves
unredacted). -/
theorem sanitize_redaction_coverage (j : Js) :
    redactedOrNull (sanitize j) = true :=
  sanitize_redactedOrNull_all.1 j

/-- C3: the redactor is idempotent; masking is a fixed point on every
acyclic JSON-like input. -/
theorem sanitize_idempotent (j : Js) :
    sanitize (sanitize j) = sanitize j :=
  sanitize_idem_all.1 j

/-- JS `x || y` on an optional string: falsy (absent or empty) falls
through to the default. -/
def strOr (x : Option String) (y : String) : String :=
  match x with
  | none => y
  | some s => if s == "" then y else s

/-- Decimal digit as a one-character string. -/
def digitStr (n : ℕ) : String := String.singleton (Char.ofNat (48 + n))

/-- Decimal rendering of a natural number, driven by a structural fuel
argument so that it evaluates inside the kernel. -/
def natTextAux : ℕ → ℕ → String
  | 0, _ => ""
  | fuel + 1, n => if n < 10 then digitStr n else natTextAux fuel (n / 10) ++ digitStr (n % 10)

/-- Decimal rendering of a natural number. -/
def natText (n : ℕ) : String := natTextAux (n + 1) n

/-- Decimal rendering of an integer. -/
def intText (n : ℤ) : String := (if n < 0 then "-" else "") ++ natText n.natAbs

/-- JS `Math.round(x)`: round half toward positive infinity. -/
def jsRound (q : ℚ) : ℤ := Int.floor (q + 1 / 2)

/-- `Math.round(x * 100) / 100`, the 2-decimal rounding used by the
trace cleaner for category totals and total blocking time. -/
def round2 (q : ℚ) : ℚ := (jsRound (q * 100) : ℚ) / 100

/-- JS `x.toFixed(1)`: one digit after the decimal point, ties away
from the smaller integer (the ECMA `toFixed` picks the larger
candidate). Only invoked on the positive durations the cleaner
formats. -/
def toFixed1 (q : ℚ) : String :=
  let n : ℤ := Int.floor (q * 10 + 1 / 2)
  (if n < 0 then "-" else "") ++ natText (n.natAbs / 10) ++ "." ++ natText (n.natAbs % 10)

/-- The `args.data` record a raw trace event may embed
(`src/trace_cleaner.js` reads `functionName` and `url` from it);
`none` in a field models an absent or empty (falsy) JSON string. -/
structure ArgsData where
  functionName : Option String
  url : Option String

/-- A raw Chrome trace event as observed by `TraceCleaner.process`:
the optional `name` (string), `dur` (microseconds, number) and
`args.data` fields. `data = none` models `event.args` or
`event.args.data` being absent or falsy. Elements whose present fields
carry other JSON types than the documented trace shape are outside the
model. -/
structure RawTraceEvent where
  name : Option String
  dur : Option ℚ
  data : Option ArgsData

/-- One element of the parsed trace-event array: a JSON `null` element
makes the source throw on `event.dur`; everything else is observed
through its `name`/`dur`/`args.data` fields. -/
inductive TraceItem where
  | tNull
  | tEvent (e : RawTraceEvent)

/-- Value of a `traceEvents` field when present: an array, some other
truthy value (on which the source's `events.forEach` throws), or a
falsy value (which falls through to the `Array.isArray` test). -/
inductive TraceVal where
  | vArr (items : List TraceItem)
  | vOtherTruthy
  | vFalsy

/-- Shape of the parsed JSON content of a trace file, as discriminated
by `TraceCleaner.process`: JSON `null` (member access throws), another
primitive, a top-level array, or an object with an optional
`traceEvents` field. -/
inductive TraceData where
  | dNull
  | dPrim
  | dArr (items : List TraceItem)
  | dObj (traceEvents : Option TraceVal)

/-- The accumulator object `metrics` of `TraceCleaner.process`. -/
structure Metrics where
  total_blocking_time : ℚ
  long_tasks_count : ℕ
  scripting : ℚ
  rendering : ℚ
  painting : ℚ
  offenders : List String
  deriving Repr

/-- An entry of the temporary `tasks` array used to rank offenders. -/
structure SlowTask where
  name : String
  duration : ℚ
  deriving Repr

/-- The summary object returned by `TraceCleaner.process` on success. -/
structure Summary where
  summary_type : String
  metrics : Metrics
  analysis_hint : String
  deriving Repr

/-- Result of a `TraceCleaner.process` call that did not throw:
the JS `null` return for a missing file, the `{error: ...}` object for
an unreadable/unparsable file, or a summary. -/
inductive ProcessOutcome where
  | noFile
  | corrupted
  | summary (s : Summary)
  deriving Repr

/-- The initial `metrics` accumulator. -/
def initMetrics : Metrics :=
  { total_blocking_time := 0, long_tasks_count := 0, scripting := 0,
    rendering := 0, painting := 0, offenders := [] }

/-- The scripting-bucket name test of the cleaner. -/
def scriptName (nm : String) : Bool :=
  nm == "EvaluateScript" || nm == "FunctionCall" || nm == "v8.compile"

/-- The rendering-bucket name test of the cleaner. -/
def renderName (nm : String) : Bool :=
  nm == "UpdateLayoutTree" || nm == "Layout" || nm == "RecalculateStyles"

/-- The painting-bucket name test of the cleaner. -/
def paintName (nm : String) : Bool :=
  nm == "Paint" || nm == "CompositeLayers"

/-- The offender identifier of a scripting event:
`event.args.data.functionName || event.args.data.url || 'Inline
Script'` when `event.args && event.args.data` holds, and the initial
`'Anonymous'` otherwise. -/
def identifierOf (e : RawTraceEvent) : String :=
  match e.data with
  | none => "Anonymous"
  | some d => strOr d.functionName (strOr d.url "Inline Script")

/-- One iteration of the `events.forEach` body of
`TraceCleaner.process`: skip events with falsy `dur` or `name`,
convert microseconds to milliseconds, then apply the four independent
bucket updates in source order. -/
def stepEvent (acc : Metrics × List SlowTask) (e : RawTraceEvent) : Metrics × List SlowTask :=
  match e.dur, e.name with
  | some q, some nm =>
    if q == 0 || nm == "" then acc
    else
      let dms := q / 1000
      let m1 := if scriptName nm then { acc.1 with scripting := acc.1.scripting + dms } else acc.1
      let ts := if scriptName nm && decide (10 < dms) then
                  acc.2 ++ [{ name := identifierOf e, duration := dms }] else acc.2
      let m2 := if renderName nm then { m1 with rendering := m1.rendering + dms } else m1
      let m3 := if paintName nm then { m2 with painting := m2.painting + dms } else m2
      let m4 := if nm == "RunTask" && decide (50 < dms) then
                  { m3 with long_tasks_count := m3.long_tasks_count + 1,
                            total_blocking_time := m3.total_blocking_time + (dms - 50) }
                else m3
      (m4, ts)
  | _, _ => acc

/-- The whole `events.forEach` pass, threading the accumulators. -/
def runPass (evs : List RawTraceEvent) : Metrics × List SlowTask :=
  evs.foldl stepEvent (initMetrics, [])

/-- Stable insertion step for the descending-duration sort: the new
task goes after every already-placed task of strictly greater
duration and before equal ones it originally followed. -/
def insertTask (t : SlowTask) : List SlowTask → List SlowTask
  | [] => [t]
  | x :: xs => if t.duration < x.duration then x :: insertTask t xs else t :: x :: xs

/-- The `tasks.sort((a, b) => b.duration - a.duration)` call. V8's
`Array.prototype.sort` is stable (ES2019), and a stable sort is
uniquely determined by its comparator, so it is modelled by stable
insertion sort on the same descending-duration order. -/
def sortTasks : List SlowTask → List SlowTask
  | [] => []
  | x :: xs => insertTask x (sortTasks xs)

/-- The offender formatting \"<name> (<duration>ms)\" with
`toFixed(1)`. -/
def fmtTask (t : SlowTask) : String := t.name ++ " (" ++ toFixed1 t.duration ++ "ms)"

/-- The offender selection of the cleaner: stable descending sort,
first 5, formatted. -/
def offendersFormat (l : List SlowTask) : List String :=
  ((sortTasks l).take 5).map fmtTask

/-- The post-pass of `TraceCleaner.process`: 2-decimal rounding of the
category totals and the blocking time, offender selection, and the
`analysis_hint` chosen by the long-task count. -/
def summarize (evs : List RawTraceEvent) : Summary :=
  let p := runPass evs
  let m := p.1
  let m2 : Metrics :=
    { m with scripting := round2 m.scripting, rendering := round2 m.rendering,
             painting := round2 m.painting,
             total_blocking_time := round2 m.total_blocking_time,
             offenders := offendersFormat p.2 }
  { summary_type := "performance_bottlenecks", metrics := m2,
    analysis_hint := if 0 < m2.long_tasks_count then
        "High main thread blocking detected. UI may feel unresponsive."
      else "Performance looks healthy." }

/-- The `rawData.traceEvents || (Array.isArray(rawData) ? rawData :
[])` extraction. Accessing `.traceEvents` on parsed `null` throws; a
truthy non-array `traceEvents` later makes `events.forEach` throw,
folded into the same error here. -/
def getEvents : TraceData → Except Unit (List TraceItem)
  | TraceData.dNull => Except.error ()
  | TraceData.dPrim => Except.ok []
  | TraceData.dArr items => Except.ok items
  | TraceData.dObj none => Except.ok []
  | TraceData.dObj (some (TraceVal.vArr items)) => Except.ok items
  | TraceData.dObj (some TraceVal.vOtherTruthy) => Except.error ()
  | TraceData.dObj (some TraceVal.vFalsy) => Except.ok []

/-- Reading the event fields of every element: a JSON `null` element
makes `event.dur` throw inside `forEach`, which aborts the whole call. -/
def eventsOfItems : List TraceItem → Except Unit (List RawTraceEvent)
  | [] => Except.ok []
  | TraceItem.tNull :: _ => Except.error ()
  | TraceItem.tEvent e :: rest =>
    match eventsOfItems rest with
    | Except.ok evs => Except.ok (e :: evs)
    | Except.error u => Except.error u

/-- `TraceCleaner.process`. The input models the file system and
parser boundary: `none` is a missing file (`fs.existsSync` false, the
source returns JS `null`), `some none` is an unreadable or unparsable
file (the `catch` returns the `{error: ...}` object), and
`some (some d)` is successfully parsed content `d`. `Except.error ()`
is an uncaught JavaScript exception. -/
def process : Option (Option TraceData) → Except Unit ProcessOutcome
  | none => Except.ok ProcessOutcome.noFile
  | some none => Except.ok ProcessOutcome.corrupted
  | some (some d) =>
    match getEvents d with
    | Except.error u => Except.error u
    | Except.ok items =>
      match eventsOfItems items with
      | Except.error u => Except.error u
      | Except.ok evs => Except.ok (ProcessOutcome.summary (summarize evs))

/-- The `dur` field with JS coercion of absence to skipping (only used
under `longTask`). -/
def durQ (e : RawTraceEvent) : ℚ := e.dur.getD 0

/-- Specification-side predicate: the event is counted as a long task
(non-falsy `dur` and `name`, named `RunTask`, duration above 50ms). -/
def longTask (e : RawTraceEvent) : Bool :=
  match e.dur, e.name with
  | some q, some nm => !(q == 0) && !(nm == "") && nm == "RunTask" && decide (50 < q / 1000)
  | _, _ => false

/-- Specification-side blocking-time contribution of one event. -/
def blockingOf (e : RawTraceEvent) : ℚ :=
  if longTask e then durQ e / 1000 - 50 else 0

/-- One forEach iteration changes the long-task counter exactly by the
`longTask` indicator. -/
theorem stepEvent_count (acc : Metrics × List SlowTask) (e : RawTraceEvent) :
    (stepEvent acc e).1.long_tasks_count =
      acc.1.long_tasks_count + (if longTask e then 1 else 0) := by
  rcases e with ⟨name, dur, data⟩
  cases dur with
  | none => simp [stepEvent, longTask]
  | some q =>
    cases name with
    | none => simp [stepEvent, longTask]
    | some nm =>
      simp only [stepEvent, longTask]
      by_cases hq : (q == 0) = true
      · simp [hq]
      · by_cases hm : (nm == "") = true
        · simp [hq, hm]
        · have hq' : (q == 0) = false := by simpa using hq
          have hm' : (nm == "") = false := by simpa using hm
          rw [if_neg (by simp [hq', hm'])]
          simp only [hq', hm', Bool.not_false, Bool.true_and]
          by_cases h1 : scriptName nm = true <;>
            by_cases h2 : renderName nm = true <;>
              by_cases h3 : paintName nm = true <;>
                by_cases h4 : (nm == "RunTask" && decide (50 < q / 1000)) = true <;>
                  simp [h1, h2, h3, h4]

/-- One forEach iteration adds exactly the event's blocking-time
contribution to the accumulator. -/
theorem stepEvent_tbt (acc : Metrics × List SlowTask) (e : RawTraceEvent) :
    (stepEvent acc e).1.total_blocking_time =
      acc.1.total_blocking_time + blockingOf e := by
  rcases e with ⟨name, dur, data⟩
  cases dur with
  | none => simp [stepEvent, blockingOf, longTask]
  | some q =>
    cases name with
    | none => simp [stepEvent, blockingOf, longTask]
    | some nm =>
      simp only [stepEvent, blockingOf, longTask, durQ]
      by_cases hq : (q == 0) = true
      · simp [hq]
      · by_cases hm : (nm == "") = true
        · simp [hq, hm]
        · have hq' : (q == 0) = false := by simpa using hq
          have hm' : (nm == "") = false := by simpa using hm
          rw [if_neg (by simp [hq', hm'])]
          simp only [hq', hm', Bool.not_false, Bool.true_and]
          by_cases h1 : scriptName nm = true <;>
            by_cases h2 : renderName nm = true <;>
              by_cases h3 : paintName nm = true <;>
                by_cases h4 : (nm == "RunTask" && decide (50 < q / 1000)) = true <;>
                  simp [h1, h2, h3, h4]

/-- Folding the pass: the long-task counter accumulates the `longTask`
count. -/
theorem foldl_count (evs : List RawTraceEvent) :
    ∀ acc, (List.foldl stepEvent acc evs).1.long_tasks_count =
      acc.1.long_tasks_count + List.countP longTask evs := by
  induction evs with
  | nil => intro acc; simp
  | cons e rest ih =>
    intro acc
    rw [List.foldl_cons, ih, List.countP_cons, stepEvent_count]
    by_cases h : longTask e = true
    · simp [h]
      omega
    · simp [h]

/-- Folding the pass: the blocking-time accumulator accumulates the
per-event contributions. -/
theorem foldl_tbt (evs : List RawTraceEvent) :
    ∀ acc, (List.foldl stepEvent acc evs).1.total_blocking_time =
      acc.1.total_blocking_time + (evs.map blockingOf).sum := by
  induction evs with
  | nil => intro acc; simp
  | cons e rest ih =>
    intro acc
    rw [List.foldl_cons, ih, List.map_cons, List.sum_cons, stepEvent_tbt]
    ring

/-- Evaluation of the single 120ms `RunTask` example through one
forEach step. -/
theorem stepEvent_runtask_120 :
    stepEvent (initMetrics, [])
      { name := some "RunTask", dur := some 120000, data := none } =
      ({ initMetrics with long_tasks_count := 1, total_blocking_time := 70 }, []) := by
  have hq0 : ((120000:ℚ) == 0) = false := by norm_num
  have hq1 : ("RunTask" == "") = false := by decide
  have hq : (((120000:ℚ) == 0) || ("RunTask" == "")) = false := by rw [hq0, hq1]; rfl
  have hs : scriptName "RunTask" = false := by decide
  have hr : renderName "RunTask" = false := by decide
  have hp : paintName "RunTask" = false := by decide
  have hrt1 : ("RunTask" == "RunTask") = true := by decide
  have hrt2 : decide ((50:ℚ) < 120000 / 1000) = true := by
    rw [decide_eq_true_eq]
    norm_num
  have hrt : (("RunTask" == "RunTask") && decide ((50:ℚ) < 120000 / 1000)) = true := by
    rw [hrt1, hrt2]; rfl
  simp only [stepEvent, hq, hs, hr, hp, hrt, Bool.false_eq_true, if_false, if_true]
  norm_num [initMetrics]

/-- C5: every `RunTask` event of duration above 50ms increments the
long-task counter and contributes its duration minus 50ms to the
blocking-time total, which is rounded to 2 decimals after the pass; a
trace holding one 120ms `RunTask` (dur 120000µs) yields a count of 1
and a total blocking time of 70. -/
theorem trace_long_task_accounting :
    (∀ evs : List RawTraceEvent,
      (summarize evs).metrics.long_tasks_count = List.countP longTask evs ∧
      (summarize evs).metrics.total_blocking_time = round2 ((evs.map blockingOf).sum)) ∧
    (∃ s : Summary,
      process (some (some (TraceData.dArr
          [TraceItem.tEvent { name := some "RunTask", dur := some 120000, data := none }]))) =
        Except.ok (ProcessOutcome.summary s) ∧
      s.metrics.long_tasks_count = 1 ∧ s.metrics.total_blocking_time = 70) := by
  constructor
  · intro evs
    constructor
    · have h := foldl_count evs (initMetrics, [])
      simp only [summarize, runPass]
      simpa [initMetrics] using h
    · have h := foldl_tbt evs (initMetrics, [])
      simp only [summarize, runPass]
      rw [show (List.foldl stepEvent (initMetrics, []) evs).1.total_blocking_time =
        (evs.map blockingOf).sum from by simpa [initMetrics] using h]
  · refine ⟨_, rfl, ?_, ?_⟩
    · simp only [summarize, runPass, List.foldl, stepEvent_runtask_120]
    · simp only [summarize, runPass, List.foldl, stepEvent_runtask_120]
      norm_num [round2, jsRound, initMetrics]

/-- Membership in an insertion step. -/
theorem mem_insertTask {y t : SlowTask} {l : List SlowTask} :
    y ∈ insertTask t l ↔ y = t ∨ y ∈ l := by
  induction l with
  | nil => simp [insertTask]
  | cons x xs ih =>
    simp only [insertTask]
    by_cases h : t.duration < x.duration
    · rw [if_pos h]
      simp only [List.mem_cons, ih]
      tauto
    · rw [if_neg h]
      simp only [List.mem_cons]

/-- Inserting preserves descending sortedness. -/
theorem pairwise_insertTask {t : SlowTask} {l : List SlowTask}
    (hl : l.Pairwise (fun a b => b.duration ≤ a.duration)) :
    (insertTask t l).Pairwise (fun a b => b.duration ≤ a.duration) := by
  induction l with
  | nil => simp [insertTask]
  | cons x xs ih =>
    rcases List.pairwise_cons.mp hl with ⟨hx, hxs⟩
    simp only [insertTask]
    by_cases h : t.duration < x.duration
    · rw [if_pos h]
      refine List.pairwise_cons.mpr ⟨?_, ih hxs⟩
      intro y hy
      rcases mem_insertTask.mp hy with rfl | hy'
      · exact le_of_lt h
      · exact hx y hy'
    · rw [if_neg h]
      refine List.pairwise_cons.mpr ⟨?_, hl⟩
      intro y hy
      rcases List.mem_cons.mp hy with rfl | hy'
      · exact le_of_not_lt h
      · exact le_trans (hx y hy') (le_of_not_lt h)

/-- The modelled `tasks.sort` output is sorted by descending duration. -/
theorem sortTasks_sorted (l : List SlowTask) :
    (sortTasks l).Pairwise (fun a b => b.duration ≤ a.duration) := by
  induction l with
  | nil => simp [sortTasks]
  | cons x xs ih => exact pairwise_insertTask ih

/-- Insertion against a fixed duration key: the new task lands in
front of the equal-duration block it was inserted before, and the
other keys' subsequences are untouched. -/
theorem filter_insertTask (t : SlowTask) (l : List SlowTask) (d : ℚ) :
    (insertTask t l).filter (fun x => x.duration == d) =
      if t.duration == d then t :: l.filter (fun x => x.duration == d)
      else l.filter (fun x => x.duration == d) := by
  induction l with
  | nil =>
    simp only [insertTask]
    by_cases h : t.duration == d <;> simp [h]
  | cons x xs ih =>
    simp only [insertTask]
    by_cases h : t.duration < x.duration
    · rw [if_pos h]
      by_cases hx : x.duration == d
      · have htd : (t.duration == d) = false := by
          simp only [beq_iff_eq] at hx ⊢
          simp
          intro he
          rw [he, ← hx] at h
          exact lt_irrefl _ h
        rw [List.filter_cons_of_pos (by simpa using hx)]
        rw [List.filter_cons_of_pos (by simpa using hx)]
        rw [ih, htd]
        simp
      · rw [List.filter_cons_of_neg (by simpa using hx)]
        rw [List.filter_cons_of_neg (by simpa using hx)]
        exact ih
    · rw [if_neg h]
      by_cases ht : t.duration == d
      · rw [if_pos ht, List.filter_cons_of_pos (by simpa using ht)]
      · rw [if_neg (by simpa using ht), List.filter_cons_of_neg (by simpa using ht)]

/-- Stability of the modelled sort: for every duration key, the
subsequence of tasks carrying that key is preserved in encounter
order. -/
theorem sortTasks_stable (l : List SlowTask) (d : ℚ) :
    (sortTasks l).filter (fun x => x.duration == d) =
      l.filter (fun x => x.duration == d) := by
  induction l with
  | nil => rfl
  | cons x xs ih =>
    simp only [sortTasks]
    rw [filter_insertTask]
    by_cases h : x.duration == d
    · rw [if_pos h, ih, List.filter_cons_of_pos (by simpa using h)]
    · rw [if_neg (by simpa using h), ih, List.filter_cons_of_neg (by simpa using h)]

/-- Concrete `toFixed(1)` renderings used by the offender example. -/
theorem toFixed1_values :
    toFixed1 (100:ℚ) = "100.0" ∧ toFixed1 (50:ℚ) = "50.0" ∧
    toFixed1 (5:ℚ) = "5.0" ∧ toFixed1 (3:ℚ) = "3.0" := by
  refine ⟨?_, ?_, ?_, ?_⟩
  · have h : Int.floor ((100:ℚ) * 10 + 1/2) = 1000 := by norm_num
    simp only [toFixed1, h]
    decide
  · have h : Int.floor ((50:ℚ) * 10 + 1/2) = 500 := by norm_num
    simp only [toFixed1, h]
    decide
  · have h : Int.floor ((5:ℚ) * 10 + 1/2) = 50 := by norm_num
    simp only [toFixed1, h]
    decide
  · have h : Int.floor ((3:ℚ) * 10 + 1/2) = 30 := by norm_num
    simp only [toFixed1, h]
    decide

/-- Sorting the example candidate list with durations [5, 50, 50, 3,
100]: descending, with the two 50ms tasks keeping their encounter
order. -/
theorem sortTasks_example :
    sortTasks [⟨"A", 5⟩, ⟨"B", 50⟩, ⟨"C", 50⟩, ⟨"D", 3⟩, ⟨"E", 100⟩] =
      ([⟨"E", 100⟩, ⟨"B", 50⟩, ⟨"C", 50⟩, ⟨"A", 5⟩, ⟨"D", 3⟩] : List SlowTask) := by
  norm_num [sortTasks, insertTask]

/-- C6: the offenders output has at most 5 entries, is sorted by
descending duration, keeps equal durations in encounter order (the
per-key subsequences of the sort are preserved), and the example
durations [5, 50, 50, 3, 100] come out as [100, 50, 50, 5, 3] with the
two 50s in original relative order, formatted to one decimal place. -/
theorem trace_offender_selection :
    (∀ evs : List RawTraceEvent,
        (summarize evs).metrics.offenders = offendersFormat (runPass evs).2) ∧
    (∀ l : List SlowTask,
        (offendersFormat l).length ≤ 5 ∧
        (sortTasks l).Pairwise (fun a b => b.duration ≤ a.duration) ∧
        ((sortTasks l).take 5).Pairwise (fun a b => b.duration ≤ a.duration) ∧
        ∀ d : ℚ, (sortTasks l).filter (fun x => x.duration == d) =
          l.filter (fun x => x.duration == d)) ∧
    offendersFormat [⟨"A", 5⟩, ⟨"B", 50⟩, ⟨"C", 50⟩, ⟨"D", 3⟩, ⟨"E", 100⟩] =
      ["E (100.0ms)", "B (50.0ms)", "C (50.0ms)", "A (5.0ms)", "D (3.0ms)"] := by
  refine ⟨fun evs => rfl, fun l => ⟨?_, sortTasks_sorted l, ?_, sortTasks_stable l⟩, ?_⟩
  · simp only [offendersFormat, List.length_map, List.length_take]
    exact min_le_left _ _
  · exact List.Pairwise.sublist (List.take_sublist 5 _) (sortTasks_sorted l)
  · rw [offendersFormat, sortTasks_example]
    obtain ⟨h100, h50, h5, h3⟩ := toFixed1_values
    simp only [List.take, List.map, fmtTask, h100, h50, h5, h3]
    decide

/-- The offender candidate(s) one event pushes onto the temporary
`tasks` array: one entry when the event is a scripting event above
10ms, none otherwise. -/
def candOf (e : RawTraceEvent) : List SlowTask :=
  match e.dur, e.name with
  | some q, some nm =>
    if q == 0 || nm == "" then []
    else if scriptName nm && decide (10 < q / 1000) then
      [{ name := identifierOf e, duration := q / 1000 }]
    else []
  | _, _ => []

/-- All offender candidates of an event sequence, in encounter order. -/
def candidatesOf : List RawTraceEvent → List SlowTask
  | [] => []
  | e :: rest => candOf e ++ candidatesOf rest

/-- One forEach iteration appends exactly the event's candidates. -/
theorem stepEvent_tasks (acc : Metrics × List SlowTask) (e : RawTraceEvent) :
    (stepEvent acc e).2 = acc.2 ++ candOf e := by
  rcases e with ⟨name, dur, data⟩
  cases dur with
  | none => simp [stepEvent, candOf]
  | some q =>
    cases name with
    | none => simp [stepEvent, candOf]
    | some nm =>
      simp only [stepEvent, candOf]
      by_cases hq : (q == 0) = true
      · simp [hq]
      · by_cases hm : (nm == "") = true
        · simp [hq, hm]
        · have hq' : (q == 0) = false := by simpa using hq
          have hm' : (nm == "") = false := by simpa using hm
          by_cases h1 : (scriptName nm && decide (10 < q / 1000)) = true <;>
            simp [h1, hq', hm']

/-- Folding the pass accumulates all candidates in encounter order. -/
theorem foldl_tasks (evs : List RawTraceEvent) :
    ∀ acc, (List.foldl stepEvent acc evs).2 = acc.2 ++ candidatesOf evs := by
  induction evs with
  | nil => intro acc; simp [candidatesOf]
  | cons e rest ih =>
    intro acc
    rw [List.foldl_cons, ih, stepEvent_tasks, candidatesOf, List.append_assoc]

/-- C8 (claim as frozen, to be refuted): a 20ms `FunctionCall` event
with no `args` record yields a candidate named `'Anonymous'`, not the
claimed `'Inline Script'` fallback. -/
theorem offender_anonymous_counterexample :
    (runPass [{ name := some "FunctionCall", dur := some 20000, data := none }]).2 =
      [{ name := "Anonymous", duration := 20 }] ∧
    ("Anonymous" : String) ≠ "Inline Script" := by
  constructor
  · rw [runPass, List.foldl_cons, List.foldl_nil, stepEvent_tasks]
    simp only [List.nil_append, candOf, identifierOf]
    have hq' : ((20000:ℚ) == 0) = false := by norm_num
    have hm' : ("FunctionCall" == "") = false := by decide
    rw [if_neg (by simp [hq', hm'])]
    have hs : scriptName "FunctionCall" = true := by decide
    have hd : decide (10 < (20000:ℚ) / 1000) = true := by
      rw [decide_eq_true_eq]
      norm_num
    rw [if_pos (by rw [hs, hd]; rfl)]
    have : (20000:ℚ) / 1000 = 20 := by norm_num
    rw [this]
  · decide

/-- C8 (amended): the `tasks` array of the pass is exactly the
candidate sequence; every scripting event (`EvaluateScript`,
`FunctionCall`, `v8.compile`) with duration above 10ms contributes one
candidate `(identifier, duration)`; the identifier is the embedded
function name, else the embedded URL, else `'Inline Script'` when the
event carries an `args.data` record — and `'Anonymous'` when it does
not. -/
theorem trace_offender_candidates :
    (∀ evs : List RawTraceEvent, (runPass evs).2 = candidatesOf evs) ∧
    (∀ (evs : List RawTraceEvent) (e : RawTraceEvent) (q : ℚ) (nm : String),
      e ∈ evs → e.dur = some q → e.name = some nm →
      (q == 0) = false → (nm == "") = false →
      scriptName nm = true → 10 < q / 1000 →
      ({ name := identifierOf e, duration := q / 1000 } : SlowTask) ∈ (runPass evs).2) ∧
    (∀ (e : RawTraceEvent) (d : ArgsData), e.data = some d →
      identifierOf e = strOr d.functionName (strOr d.url "Inline Script")) ∧
    (∀ e : RawTraceEvent, e.data = none → identifierOf e = "Anonymous") := by
  have hrun : ∀ evs : List RawTraceEvent, (runPass evs).2 = candidatesOf evs := by
    intro evs
    rw [runPass, foldl_tasks]
    rfl
  refine ⟨hrun, ?_, ?_, ?_⟩
  · intro evs e q nm hmem hdur hname hq hnm hs hlt
    have hcand : candOf e = [{ name := identifierOf e, duration := q / 1000 }] := by
      rcases e with ⟨name, dur, data⟩
      simp only at hdur hname
      subst hdur hname
      simp only [candOf]
      rw [if_neg (by simp [hq, hnm]), if_pos (by rw [hs, decide_eq_true hlt]; rfl)]
    rw [hrun]
    induction evs with
    | nil => cases hmem
    | cons x rest ih =>
      rw [candidatesOf]
      rcases List.mem_cons.mp hmem with rfl | hmem'
      · rw [hcand]
        exact List.mem_append_left _ (List.mem_singleton_self _)
      · exact List.mem_append_right _ (ih hmem')
  · intro e d hd
    rcases e with ⟨name, dur, data⟩
    simp only at hd
    subst hd
    rfl
  · intro e hd
    rcases e with ⟨name, dur, data⟩
    simp only at hd
    subst hd
    rfl

/-- Witness for the amended C8: a 30ms `EvaluateScript` event with an
embedded function name yields the candidate `("foo", 30)`. -/
theorem trace_offender_candidates_witness :
    ({ name := "foo", duration := 30000 / 1000 } : SlowTask) ∈
      (runPass [{ name := some "EvaluateScript", dur := some 30000,
                  data := some { functionName := some "foo", url := none } }]).2 := by
  have h := trace_offender_candidates.2.1
    [{ name := some "EvaluateScript", dur := some 30000,
       data := some { functionName := some "foo", url := none } }]
    { name := some "EvaluateScript", dur := some 30000,
      data := some { functionName := some "foo", url := none } }
    30000 "EvaluateScript" (List.mem_singleton_self _) rfl rfl
    (by norm_num) (by decide) (by decide) (by norm_num)
  simpa [identifierOf, strOr] using h

/-- No element of the parsed event array is JSON `null`. -/
def itemsOk : List TraceItem → Bool
  | [] => true
  | TraceItem.tNull :: _ => false
  | TraceItem.tEvent _ :: rest => itemsOk rest

/-- Well-shaped parsed trace content: not top-level JSON `null`, any
truthy `traceEvents` field is an array, and no event element is JSON
`null`. On exactly these inputs the source cannot throw. -/
def goodTrace : TraceData → Bool
  | TraceData.dNull => false
  | TraceData.dPrim => true
  | TraceData.dArr items => itemsOk items
  | TraceData.dObj none => true
  | TraceData.dObj (some (TraceVal.vArr items)) => itemsOk items
  | TraceData.dObj (some TraceVal.vOtherTruthy) => false
  | TraceData.dObj (some TraceVal.vFalsy) => true

/-- Reading the event fields succeeds on null-free element lists. -/
theorem eventsOfItems_ok {items : List TraceItem} (h : itemsOk items = true) :
    ∃ evs, eventsOfItems items = Except.ok evs := by
  induction items with
  | nil => exact ⟨[], rfl⟩
  | cons x rest ih =>
    cases x with
    | tNull => simp [itemsOk] at h
    | tEvent e =>
      obtain ⟨evs, hevs⟩ := ih (by simpa [itemsOk] using h)
      exact ⟨e :: evs, by simp [eventsOfItems, hevs]⟩

/-- C4 (claim as frozen, to be refuted): `TraceCleaner.process` does
throw on some parsed inputs — a trace file whose entire content is the
JSON text `null` parses successfully and then the untried
`rawData.traceEvents` member access throws; likewise a truthy
non-array `traceEvents` makes `events.forEach` throw. A missing file
yields the JS `null` return, not the distinguished error object (which
only the parse-failure path returns). -/
theorem process_throws_counterexample :
    process (some (some TraceData.dNull)) = Except.error () ∧
    process (some (some (TraceData.dObj (some TraceVal.vOtherTruthy)))) = Except.error () ∧
    process none = Except.ok ProcessOutcome.noFile ∧
    process (some none) = Except.ok ProcessOutcome.corrupted :=
  ⟨rfl, rfl, rfl, rfl⟩

/-- C4 (amended): `process` returns the JS `null` result for a missing
file and the distinguished error object for an unreadable/unparsable
file; on any parsed content that is not top-level JSON `null`, whose
truthy `traceEvents` (if any) is an array, and whose elements are not
JSON `null`, it does not throw and produces a summary — a top-level
array or an array-valued `traceEvents` is used as the event sequence
and every other accepted shape yields the empty sequence. -/
theorem process_error_handling :
    (process none = Except.ok ProcessOutcome.noFile) ∧
    (process (some none) = Except.ok ProcessOutcome.corrupted) ∧
    (∀ d : TraceData, goodTrace d = true →
      ∃ s : Summary, process (some (some d)) = Except.ok (ProcessOutcome.summary s)) ∧
    (process (some (some TraceData.dPrim)) =
       Except.ok (ProcessOutcome.summary (summarize []))) ∧
    (process (some (some (TraceData.dObj none))) =
       Except.ok (ProcessOutcome.summary (summarize []))) ∧
    (process (some (some (TraceData.dObj (some TraceVal.vFalsy)))) =
       Except.ok (ProcessOutcome.summary (summarize []))) := by
  refine ⟨rfl, rfl, ?_, rfl, rfl, rfl⟩
  intro d hd
  cases d with
  | dNull => simp [goodTrace] at hd
  | dPrim => exact ⟨summarize [], rfl⟩
  | dArr items =>
    obtain ⟨evs, hevs⟩ := eventsOfItems_ok (by simpa [goodTrace] using hd)
    exact ⟨summarize evs, by simp [process, getEvents, hevs]⟩
  | dObj tv =>
    cases tv with
    | none => exact ⟨summarize [], rfl⟩
    | some v =>
      cases v with
      | vArr items =>
        obtain ⟨evs, hevs⟩ := eventsOfItems_ok (by simpa [goodTrace] using hd)
        exact ⟨summarize evs, by simp [process, getEvents, hevs]⟩
      | vOtherTruthy => simp [goodTrace] at hd
      | vFalsy => exact ⟨summarize [], rfl⟩

/-- Witness for the amended C4: an empty top-level array is
well-shaped and summarized without throwing. -/
theorem process_error_handling_witness :
    goodTrace (TraceData.dArr []) = true ∧
    ∃ s : Summary, process (some (some (TraceData.dArr []))) =
      Except.ok (ProcessOutcome.summary s) :=
  ⟨by decide, process_error_handling.2.2.1 (TraceData.dArr []) (by decide)⟩

/-- A timeline event as built by `Logger.logEvent`: ISO timestamp
(threaded in as an opaque string from the clock), type tag, sanitized
payload. -/
structure TimelineEvent where
  timestamp : String
  type : String
  data : Js

/-- A console dump entry as built by `Logger.logConsole` (all levels). -/
structure ConsoleEntry where
  timestamp : String
  level : String
  message : String
  source : String

/-- The mutable state of the `Logger` singleton of `src/logger.js`.
`timelineWrites` is instrumentation only: it counts the
`timeline.json` write attempts of `endSession` so that
at-most-once/exactly-once properties are expressible; it is not part
of the source state. -/
structure LoggerState where
  sessionFolder : Option String
  timeline : List TimelineEvent
  consoleDump : List ConsoleEntry
  isActive : Bool
  timelineWrites : ℕ

/-- `Logger.logEvent`: a no-op unless active, otherwise timestamp,
sanitize and append. -/
def logEvent (st : LoggerState) (now type : String) (data : Js) : LoggerState :=
  if st.isActive then
    { st with timeline := st.timeline ++
        [{ timestamp := now, type := type, data := sanitize data }] }
  else st

/-- The source location a console message may carry. -/
structure SourceLocation where
  url : Option String
  lineNumber : Option ℕ

/-- The `location ? `${location.url || ''}:${location.lineNumber ||
0}` : ''` source string of `Logger.logConsole`. -/
def sourceOf : Option SourceLocation → String
  | none => ""
  | some loc => strOr loc.url "" ++ ":" ++ natText (loc.lineNumber.getD 0)

/-- `Logger.logConsole`: a no-op unless active; appends the full entry
to the console dump for every level, and additionally logs a
`CONSOLE_ERROR` timeline event with the text truncated to 200
characters when the level is exactly `'error'`. -/
def logConsole (st : LoggerState) (now level text : String)
    (loc : Option SourceLocation) : LoggerState :=
  if st.isActive then
    let entry : ConsoleEntry :=
      { timestamp := now, level := level, message := text, source := sourceOf loc }
    let st1 := { st with consoleDump := st.consoleDump ++ [entry] }
    if level == "error" then
      logEvent st1 now "CONSOLE_ERROR"
        (Js.obj (JsObj.cons "message" (Js.str (text.take 200))
          (JsObj.cons "source" (Js.str entry.source) JsObj.nil)))
    else st1
  else st

/-- `Logger.endSession`: returns JS `null` when inactive or without a
folder; otherwise writes `timeline.json` (counted in
`timelineWrites`; a failure throws with the state unchanged apart
from the count), then writes `console_dump.log` when the dump is
non-empty (a failure throws likewise), then clears the session state
and returns the folder. `tOk`/`cOk` model the success of the two
`writeFileSync` calls. -/
def endSession (st : LoggerState) (tOk cOk : Bool) :
    Except LoggerState (LoggerState × Option String) :=
  match st.sessionFolder, st.isActive with
  | some folder, true =>
    let st1 := { st with timelineWrites := st.timelineWrites + 1 }
    if tOk = false then Except.error st1
    else if !st1.consoleDump.isEmpty && !cOk then Except.error st1
    else
      Except.ok
        ({ st1 with
            isActive := false
            sessionFolder := none
            timeline := []
            consoleDump := [] },
          some folder)
  | _, _ => Except.ok (st, none)

/-- The console payload object is untouched by sanitization
(`message` and `source` are not sensitive keys and hold strings). -/
theorem sanitize_console_payload (m s : String) :
    sanitize (Js.obj (JsObj.cons "message" (Js.str m)
      (JsObj.cons "source" (Js.str s) JsObj.nil))) =
    Js.obj (JsObj.cons "message" (Js.str m)
      (JsObj.cons "source" (Js.str s) JsObj.nil)) := by
  have h1 : isSensitiveKey "message" = false := by decide
  have h2 : isSensitiveKey "source" = false := by decide
  simp only [sanitize]
  rw [sanitizeObj_cons_copy (by simp [h1]) (by rfl)]
  rw [sanitizeObj_cons_copy (by simp [h2]) (by rfl)]
  rfl

/-- C10: while a session is active, every console entry is appended in
full to the console dump regardless of level; exactly the entries of
level `'error'` additionally produce a `CONSOLE_ERROR` timeline event
whose message is the console text truncated to its first 200
characters. -/
theorem console_error_timeline (st : LoggerState) (now level text : String)
    (loc : Option SourceLocation) (h : st.isActive = true) :
    (logConsole st now level text loc).consoleDump =
      st.consoleDump ++
        [{ timestamp := now, level := level, message := text, source := sourceOf loc }] ∧
    (level = "error" →
      (logConsole st now level text loc).timeline =
        st.timeline ++
          [{ timestamp := now, type := "CONSOLE_ERROR",
             data := Js.obj (JsObj.cons "message" (Js.str (text.take 200))
               (JsObj.cons "source" (Js.str (sourceOf loc)) JsObj.nil)) }]) ∧
    (level ≠ "error" → (logConsole st now level text loc).timeline = st.timeline) := by
  refine ⟨?_, ?_, ?_⟩
  · simp only [logConsole, if_pos h]
    by_cases he : (level == "error") = true
    · simp [he, logEvent, h]
    · simp [he]
  · intro he
    subst he
    simp only [logConsole, if_pos h]
    rw [if_pos (by decide)]
    simp [logEvent, h, sanitize_console_payload]
  · intro he
    simp only [logConsole, if_pos h]
    rw [if_neg (by simpa using he)]

/-- Witness for C10 at a concrete active state and an error-level
entry. -/
theorem console_error_timeline_witness :
    (logConsole { sessionFolder := some "f", timeline := [], consoleDump := [],
                  isActive := true, timelineWrites := 0 } "t0" "error" "boom" none).consoleDump =
      [] ++ [{ timestamp := "t0", level := "error", message := "boom", source := sourceOf none }] ∧
    ("error" = "error" →
      (logConsole { sessionFolder := some "f", timeline := [], consoleDump := [],
                    isActive := true, timelineWrites := 0 } "t0" "error" "boom" none).timeline =
        [] ++ [{ timestamp := "t0", type := "CONSOLE_ERROR",
                 data := Js.obj (JsObj.cons "message" (Js.str ("boom".take 200))
                   (JsObj.cons "source" (Js.str (sourceOf none)) JsObj.nil)) }]) ∧
    ("error" ≠ "error" →
      (logConsole { sessionFolder := some "f", timeline := [], consoleDump := [],
                    isActive := true, timelineWrites := 0 } "t0" "error" "boom" none).timeline = []) :=
  console_error_timeline
    { sessionFolder := some "f", timeline := [], consoleDump := [],
      isActive := true, timelineWrites := 0 } "t0" "error" "boom" none rfl

/-- Abstract decimal rendering of a JSON number (JS number-to-string
formatting is not modelled bit-exactly; no claim depends on its exact
output, only on it being non-empty). -/
def ratText (q : ℚ) : String :=
  intText q.num ++ (if q.den == 1 then "" else "/" ++ natText q.den)

mutual
/-- `JSON.stringify` on the JSON embedding (string escaping and JS
number formatting abstracted; no claim depends on the exact
rendering). -/
def jsStringify : Js → String
  | Js.null => "null"
  | Js.bool b => if b then "true" else "false"
  | Js.num q => ratText q
  | Js.str s => "\"" ++ s ++ "\""
  | Js.arr l => "[" ++ stringifyList l ++ "]"
  | Js.obj o => "\x7b" ++ stringifyObj o ++ "\x7d"

/-- Comma-joined array elements. -/
def stringifyList : JsList → String
  | JsList.nil => ""
  | JsList.cons x JsList.nil => jsStringify x
  | JsList.cons x (JsList.cons y l) =>
    jsStringify x ++ "," ++ stringifyList (JsList.cons y l)

/-- Comma-joined record entries. -/
def stringifyObj : JsObj → String
  | JsObj.nil => ""
  | JsObj.cons k v JsObj.nil => "\"" ++ k ++ "\":" ++ jsStringify v
  | JsObj.cons k v (JsObj.cons k2 v2 o) =>
    "\"" ++ k ++ "\":" ++ jsStringify v ++ "," ++ stringifyObj (JsObj.cons k2 v2 o)
end

/-- The text `getResponseSnippet` measures and truncates:
`typeof response === 'string' ? response : JSON.stringify(response)`. -/
def jsTextOf : Js → String
  | Js.str s => s
  | v => jsStringify v

/-- The `MAX_RESPONSE_SNIPPET` constant (1KB) of the orchestrator. -/
def MAX_RESPONSE_SNIPPET : ℕ := 1024

/-- `getResponseSnippet` of the orchestrator: JS `null` for falsy
input, the text itself up to the cap, else the first 1024 characters
with the fixed truncation marker appended. (`String.length` counts
code points where JS counts UTF-16 units; the claims speak of
characters.) -/
def getResponseSnippet (response : Js) : Option String :=
  if truthy response = false then none
  else
    let text := jsTextOf response
    if text.length ≤ MAX_RESPONSE_SNIPPET then some text
    else some (text.take MAX_RESPONSE_SNIPPET ++ "... [TRUNCATED]")

/-- The `logEntry` built by the response handler: `method`, `url`,
`status`, and `responseSnippet` added only when the snippet is truthy
(`if (responseSnippet)`). -/
def networkLogEntry (method url : String) (status : ℚ) (snippet : Option String) : Js :=
  Js.obj (JsObj.cons "method" (Js.str method) (JsObj.cons "url" (Js.str url)
    (JsObj.cons "status" (Js.num status)
      (match snippet with
       | some s => if s == "" then JsObj.nil else JsObj.cons "responseSnippet" (Js.str s) JsObj.nil
       | none => JsObj.nil))))

/-- Field lookup in a record. -/
def hasField : JsObj → String → Bool
  | JsObj.nil, _ => false
  | JsObj.cons k _ rest, f => k == f || hasField rest f

/-- Whether a value is a record carrying the given field. -/
def jsHasField : Js → String → Bool
  | Js.obj o, f => hasField o f
  | _, _ => false

/-- The recording tail of the `page.on('response')` handler for a kept
response while recording: `body` is the parsed JSON body when the
content type was JSON and parsing succeeded, `none` otherwise; the
snippet is computed from it and the entry logged as
`NETWORK_REQUEST`. -/
def recordNetworkResponse (st : LoggerState) (now method url : String)
    (status : ℚ) (body : Option Js) : LoggerState :=
  let snippet := match body with
    | some b => getResponseSnippet b
    | none => none
  logEvent st now "NETWORK_REQUEST" (networkLogEntry method url status snippet)

/-- A string of positive length is not empty. -/
theorem ne_empty_of_length_pos {s : String} (h : 0 < s.length) : s ≠ "" := by
  intro he
  subst he
  simp at h

/-- A one-digit rendering has length 1. -/
theorem digitStr_length (n : ℕ) : (digitStr n).length = 1 := rfl

/-- `natTextAux` with positive fuel renders at least one character. -/
theorem natTextAux_length_pos : ∀ (fuel n : ℕ), 0 < (natTextAux (fuel + 1) n).length := by
  intro fuel n
  simp only [natTextAux]
  by_cases h : n < 10
  · rw [if_pos h, digitStr_length]
    omega
  · rw [if_neg h]
    cases fuel with
    | zero => simp [natTextAux, String.length_append, digitStr_length]
    | succ f =>
      have := natTextAux_length_pos f (n / 10)
      simp [String.length_append, digitStr_length]

/-- `natText` is never the empty string. -/
theorem natText_ne_empty (n : ℕ) : natText n ≠ "" :=
  ne_empty_of_length_pos (natTextAux_length_pos n n)

/-- An append is non-empty when its right part is. -/
theorem append_ne_empty_right (a : String) {b : String} (hb : b ≠ "") :
    a ++ b ≠ "" := by
  apply ne_empty_of_length_pos
  rw [String.length_append]
  have : 0 < b.length := by
    by_contra hb0
    push_neg at hb0
    interval_cases hb' : b.length
    · exact hb (by
        cases b with
        | mk data =>
          cases data with
          | nil => rfl
          | cons c cs => simp [String.length] at hb')
  omega

/-- An append is non-empty when its left part is. -/
theorem append_ne_empty_left {a : String} (b : String) (ha : a ≠ "") :
    a ++ b ≠ "" := by
  apply ne_empty_of_length_pos
  rw [String.length_append]
  have : 0 < a.length := by
    by_contra ha0
    push_neg at ha0
    interval_cases ha' : a.length
    · exact ha (by
        cases a with
        | mk data =>
          cases data with
          | nil => rfl
          | cons c cs => simp [String.length] at ha')
  omega

/-- The measured text of a truthy JSON value is never empty. -/
theorem jsTextOf_ne_empty {v : Js} (h : truthy v = true) : jsTextOf v ≠ "" := by
  cases v with
  | null => simp [truthy] at h
  | bool b =>
    cases b with
    | false => simp [truthy] at h
    | true => decide
  | num q =>
    show ratText q ≠ ""
    unfold ratText intText
    apply append_ne_empty_left
    apply append_ne_empty_right
    exact natText_ne_empty _
  | str s =>
    simpa [truthy, jsTextOf] using h
  | arr l =>
    show "[" ++ stringifyList l ++ "]" ≠ ""
    apply append_ne_empty_right
    decide
  | obj o =>
    show "\x7b" ++ stringifyObj o ++ "\x7d" ≠ ""
    apply append_ne_empty_right
    decide

/-- The network log entry is untouched by sanitization (none of its
keys is sensitive and all values are primitives). -/
theorem sanitize_network_entry (method url s : String) (status : ℚ) :
    sanitize (Js.obj (JsObj.cons "method" (Js.str method)
      (JsObj.cons "url" (Js.str url) (JsObj.cons "status" (Js.num status)
      (JsObj.cons "responseSnippet" (Js.str s) JsObj.nil))))) =
    Js.obj (JsObj.cons "method" (Js.str method)
      (JsObj.cons "url" (Js.str url) (JsObj.cons "status" (Js.num status)
      (JsObj.cons "responseSnippet" (Js.str s) JsObj.nil)))) := by
  have h1 : isSensitiveKey "method" = false := by decide
  have h2 : isSensitiveKey "url" = false := by decide
  have h3 : isSensitiveKey "status" = false := by decide
  have h4 : isSensitiveKey "responseSnippet" = false := by decide
  simp only [sanitize]
  rw [sanitizeObj_cons_copy (by simp [h1]) (by rfl)]
  rw [sanitizeObj_cons_copy (by simp [h2]) (by rfl)]
  rw [sanitizeObj_cons_copy (by simp [h3]) (by rfl)]
  rw [sanitizeObj_cons_copy (by simp [h4]) (by rfl)]
  rfl

/-- On truthy input the snippet is the measured text, capped. -/
theorem getResponseSnippet_truthy {body : Js} (h : truthy body = true) :
    getResponseSnippet body =
      some (if (jsTextOf body).length ≤ MAX_RESPONSE_SNIPPET then jsTextOf body
            else (jsTextOf body).take MAX_RESPONSE_SNIPPET ++ "... [TRUNCATED]") := by
  unfold getResponseSnippet
  rw [if_neg (by simp [h])]
  by_cases hl : (jsTextOf body).length ≤ MAX_RESPONSE_SNIPPET
  · rw [if_pos hl, if_pos hl]
  · rw [if_neg hl, if_neg hl]

/-- C9 (claim as frozen, to be refuted): a kept JSON-typed response
whose parsed body is falsy (here the valid JSON body `false`) yields
no snippet at all — `getResponseSnippet` returns JS `null` and the
logged entry carries no `responseSnippet` field. -/
theorem snippet_falsy_body_counterexample :
    getResponseSnippet (Js.bool false) = none ∧
    jsHasField (networkLogEntry "GET" "https://api.example/b" 200
      (getResponseSnippet (Js.bool false))) "responseSnippet" = false := by
  exact ⟨rfl, rfl⟩

/-- C9 (amended): for every kept JSON-typed response whose parsed body
is truthy, the recorded NETWORK_REQUEST event carries a response
snippet: the body's text (the string itself for string bodies, its
JSON serialization otherwise) verbatim when at most 1024 characters,
else its first 1024 characters with the fixed `... [TRUNCATED]`
marker appended; falsy bodies produce no snippet field. -/
theorem network_snippet_cap (body : Js) (h : truthy body = true) :
    ∃ s : String,
      getResponseSnippet body = some s ∧ s ≠ "" ∧
      ((jsTextOf body).length ≤ MAX_RESPONSE_SNIPPET → s = jsTextOf body) ∧
      (MAX_RESPONSE_SNIPPET < (jsTextOf body).length →
        s = (jsTextOf body).take MAX_RESPONSE_SNIPPET ++ "... [TRUNCATED]") ∧
      ∀ (st : LoggerState) (now method url : String) (status : ℚ),
        st.isActive = true →
        (recordNetworkResponse st now method url status (some body)).timeline =
          st.timeline ++
            [{ timestamp := now
               type := "NETWORK_REQUEST"
               data := Js.obj (JsObj.cons "method" (Js.str method)
                 (JsObj.cons "url" (Js.str url)
                 (JsObj.cons "status" (Js.num status)
                 (JsObj.cons "responseSnippet" (Js.str s) JsObj.nil)))) }] := by
  by_cases hl : (jsTextOf body).length ≤ MAX_RESPONSE_SNIPPET
  · refine ⟨jsTextOf body, ?_, jsTextOf_ne_empty h, fun _ => rfl,
      fun hc => absurd hl (not_le.mpr hc), ?_⟩
    · rw [getResponseSnippet_truthy h, if_pos hl]
    · intro st now method url status hact
      simp only [recordNetworkResponse, getResponseSnippet_truthy h, if_pos hl,
        networkLogEntry]
      rw [if_neg (by simp [jsTextOf_ne_empty h])]
      simp only [logEvent, if_pos hact, sanitize_network_entry]
  · have hs : (jsTextOf body).take MAX_RESPONSE_SNIPPET ++ "... [TRUNCATED]" ≠ "" :=
      append_ne_empty_right _ (by decide)
    refine ⟨(jsTextOf body).take MAX_RESPONSE_SNIPPET ++ "... [TRUNCATED]", ?_, hs,
      fun hc => absurd hc hl, fun _ => rfl, ?_⟩
    · rw [getResponseSnippet_truthy h, if_neg hl]
    · intro st now method url status hact
      simp only [recordNetworkResponse, getResponseSnippet_truthy h, if_neg hl,
        networkLogEntry]
      rw [if_neg (by simp [hs])]
      simp only [logEvent, if_pos hact, sanitize_network_entry]

/-- Witness for the amended C9: the string body "hi" is truthy and
yields a snippet. -/
theorem network_snippet_cap_witness :
    truthy (Js.str "hi") = true ∧
    ∃ s : String, getResponseSnippet (Js.str "hi") = some s ∧ s ≠ "" := by
  refine ⟨by decide, ?_⟩
  obtain ⟨s, h1, h2, _⟩ := network_snippet_cap (Js.str "hi") (by decide)
  exact ⟨s, h1, h2⟩

/-- Strings as a JSON array. -/
def jsListOfStrings : List String → JsList
  | [] => JsList.nil
  | s :: rest => JsList.cons (Js.str s) (jsListOfStrings rest)

/-- The metrics block as the JSON payload it is logged as. -/
def jsOfMetrics (m : Metrics) : Js :=
  Js.obj (JsObj.cons "total_blocking_time" (Js.num m.total_blocking_time)
    (JsObj.cons "long_tasks_count" (Js.num m.long_tasks_count)
    (JsObj.cons "categories"
      (Js.obj (JsObj.cons "scripting" (Js.num m.scripting)
        (JsObj.cons "rendering" (Js.num m.rendering)
        (JsObj.cons "painting" (Js.num m.painting) JsObj.nil))))
    (JsObj.cons "offenders" (Js.arr (jsListOfStrings m.offenders)) JsObj.nil))))

/-- The value `TraceCleaner.process` returned, as the JSON payload the
orchestrator hands to `logEvent` (the `{error: ...}` object is truthy
and is logged as a PERFORMANCE_SUMMARY payload too). -/
def jsOfOutcome : ProcessOutcome → Js
  | ProcessOutcome.noFile => Js.null
  | ProcessOutcome.corrupted =>
    Js.obj (JsObj.cons "error" (Js.str "Trace file corrupted or unreadable") JsObj.nil)
  | ProcessOutcome.summary s =>
    Js.obj (JsObj.cons "summary_type" (Js.str s.summary_type)
      (JsObj.cons "metrics" (jsOfMetrics s.metrics)
      (JsObj.cons "analysis_hint" (Js.str s.analysis_hint) JsObj.nil)))

/-- JS truthiness of the `traceSummary` value (`null` is falsy, both
objects are truthy). -/
def outcomeTruthy : ProcessOutcome → Bool
  | ProcessOutcome.noFile => false
  | _ => true

/-- The module-level mutable state of the orchestrator.
`unlinkCalls` is instrumentation only: it counts `fs.unlinkSync`
invocations on the raw trace file so that at-most-once deletion is
expressible. -/
structure SysState where
  globalIsRecording : Bool
  isStopping : Bool
  currentTracePath : Option String
  logger : LoggerState
  unlinkCalls : ℕ

/-- Outcome of the `Promise.race` between `page.tracing.stop()` and
the fixed 5-second timer: the stop resolved first, or it timed out or
rejected. -/
inductive TraceStopOutcome where
  | success
  | timeoutOrError

/-- The state after the synchronous prologue of `nodeStopRecording`:
the stopping flag is raised and the recording flag lowered before the
first await, so every interleaved call observes `isStopping = true`. -/
def stopMid (st : SysState) : SysState :=
  { st with isStopping := true, globalIsRecording := false }

/-- Step 2 of `nodeStopRecording` from the mid-state: the guarded
tracing stop. A timeout or error of the race is caught and skips the
ETL; a successful stop with an existing file runs `process`, logs any
truthy result as PERFORMANCE_SUMMARY, and attempts `unlinkSync`
(counted; its own failure is caught); `currentTracePath` is cleared
in the `finally` on every path. `fileExists` models `fs.existsSync`,
`parsed` the read/parse outcome of the trace file. -/
def stopStep2 (st : SysState) (tr : TraceStopOutcome) (fileExists : Bool)
    (parsed : Option TraceData) (now : String) : SysState :=
  match st.currentTracePath with
  | none => st
  | some _ =>
    let stTry :=
      match tr with
      | TraceStopOutcome.timeoutOrError => st
      | TraceStopOutcome.success =>
        if fileExists then
          match process (some parsed) with
          | Except.error _ => st
          | Except.ok outcome =>
            let stl := if outcomeTruthy outcome then
                { st with logger :=
                    logEvent st.logger now "PERFORMANCE_SUMMARY" (jsOfOutcome outcome) }
              else st
            { stl with unlinkCalls := stl.unlinkCalls + 1 }
        else st
    { stTry with currentTracePath := none }

/-- The unconditional finalization (step 3) after step 2: the
`logger.endSession` call in its own try/catch; a throw is caught and
turned into a JS `null` return; the stopping flag is reset on both
exits. -/
def stopRest (st : SysState) (tr : TraceStopOutcome) (fileExists : Bool)
    (parsed : Option TraceData) (tOk cOk : Bool) (now : String) :
    SysState × Option String :=
  let st2 := stopStep2 st tr fileExists parsed now
  match endSession st2.logger tOk cOk with
  | Except.ok (lg, folder) => ({ st2 with logger := lg, isStopping := false }, folder)
  | Except.error lg => ({ st2 with logger := lg, isStopping := false }, none)

/-- `nodeStopRecording`: the re-entrancy guard, then the prologue and
the rest. -/
def nodeStopRecording (st : SysState) (tr : TraceStopOutcome) (fileExists : Bool)
    (parsed : Option TraceData) (tOk cOk : Bool) (now : String) :
    SysState × Option String :=
  if st.isStopping then (st, none)
  else stopRest (stopMid st) tr fileExists parsed tOk cOk now

/-- `logEvent` only touches the timeline. -/
theorem logEvent_fields (st : LoggerState) (now ty : String) (data : Js) :
    (logEvent st now ty data).isActive = st.isActive ∧
    (logEvent st now ty data).sessionFolder = st.sessionFolder ∧
    (logEvent st now ty data).timelineWrites = st.timelineWrites ∧
    (logEvent st now ty data).consoleDump = st.consoleDump := by
  unfold logEvent
  by_cases h : st.isActive <;> simp [h]

/-- `logEvent` preserves the active flag. -/
theorem logEvent_isActive (st : LoggerState) (now ty : String) (data : Js) :
    (logEvent st now ty data).isActive = st.isActive :=
  (logEvent_fields st now ty data).1

/-- `logEvent` preserves the session folder. -/
theorem logEvent_sessionFolder (st : LoggerState) (now ty : String) (data : Js) :
    (logEvent st now ty data).sessionFolder = st.sessionFolder :=
  (logEvent_fields st now ty data).2.1

/-- `logEvent` preserves the write count. -/
theorem logEvent_timelineWrites (st : LoggerState) (now ty : String) (data : Js) :
    (logEvent st now ty data).timelineWrites = st.timelineWrites :=
  (logEvent_fields st now ty data).2.2.1

/-- `logEvent` preserves the console dump. -/
theorem logEvent_consoleDump (st : LoggerState) (now ty : String) (data : Js) :
    (logEvent st now ty data).consoleDump = st.consoleDump :=
  (logEvent_fields st now ty data).2.2.2

/-- Step 2 deletes the trace file at most once and leaves the stopping
flag and every `endSession`-relevant logger field untouched. -/
theorem stopStep2_facts (st : SysState) (tr : TraceStopOutcome) (fe : Bool)
    (p : Option TraceData) (now : String) :
    (stopStep2 st tr fe p now).unlinkCalls ≤ st.unlinkCalls + 1 ∧
    (stopStep2 st tr fe p now).isStopping = st.isStopping ∧
    (stopStep2 st tr fe p now).logger.isActive = st.logger.isActive ∧
    (stopStep2 st tr fe p now).logger.sessionFolder = st.logger.sessionFolder ∧
    (stopStep2 st tr fe p now).logger.timelineWrites = st.logger.timelineWrites ∧
    (stopStep2 st tr fe p now).logger.consoleDump = st.logger.consoleDump := by
  cases hcp : st.currentTracePath with
  | none => simp [stopStep2, hcp]
  | some pth =>
    cases tr with
    | timeoutOrError => simp [stopStep2, hcp]
    | success =>
      cases fe with
      | false => simp [stopStep2, hcp]
      | true =>
        cases hpr : process (some p) with
        | error u => simp [stopStep2, hcp, hpr]
        | ok outcome =>
          by_cases ho : outcomeTruthy outcome = true <;>
            simp [stopStep2, hcp, hpr, ho, logEvent_isActive, logEvent_sessionFolder,
              logEvent_timelineWrites, logEvent_consoleDump]

/-- `endSession` without an active session (or folder) returns JS
`null` and changes nothing. -/
theorem endSession_inactive (lg : LoggerState) (tOk cOk : Bool)
    (h : lg.isActive = false ∨ lg.sessionFolder = none) :
    endSession lg tOk cOk = Except.ok (lg, none) := by
  rcases h with h | h
  · cases hsf : lg.sessionFolder <;> simp [endSession, hsf, h]
  · simp [endSession, h]

/-- `endSession` with an active session: the timeline write is
attempted exactly once; a timeline-write failure throws, a
console-dump-write failure (non-empty dump) throws as well, and
otherwise the state is cleared and the folder returned. -/
theorem endSession_active (lg : LoggerState) (f : String) (tOk cOk : Bool)
    (ha : lg.isActive = true) (hf : lg.sessionFolder = some f) :
    (tOk = false →
       endSession lg tOk cOk =
         Except.error { lg with timelineWrites := lg.timelineWrites + 1 }) ∧
    (tOk = true → lg.consoleDump.isEmpty = false → cOk = false →
       endSession lg tOk cOk =
         Except.error { lg with timelineWrites := lg.timelineWrites + 1 }) ∧
    (tOk = true → (lg.consoleDump.isEmpty = true ∨ cOk = true) →
       endSession lg tOk cOk =
         Except.ok
           ({ lg with
               timelineWrites := lg.timelineWrites + 1
               isActive := false
               sessionFolder := none
               timeline := []
               consoleDump := [] },
             some f)) := by
  refine ⟨?_, ?_, ?_⟩
  · intro ht
    subst ht
    simp [endSession, hf, ha]
  · intro ht hd hc
    subst ht hc
    simp [endSession, hf, ha, hd]
  · intro ht hdc
    subst ht
    simp only [endSession, hf, ha]
    rw [if_neg (by simp)]
    rcases hdc with hd | hc
    · rw [if_neg (by simp [hd])]
    · subst hc
      rw [if_neg (by simp)]

/-- The finalization step's state projections: the deletion counter is
whatever step 2 left, and the stopping flag is reset. -/
theorem stopRest_proj (s : SysState) (tr : TraceStopOutcome) (fe : Bool)
    (p : Option TraceData) (tOk cOk : Bool) (now : String) :
    (stopRest s tr fe p tOk cOk now).1.unlinkCalls =
      (stopStep2 s tr fe p now).unlinkCalls ∧
    (stopRest s tr fe p tOk cOk now).1.isStopping = false := by
  simp only [stopRest]
  cases hes : endSession (stopStep2 s tr fe p now).logger tOk cOk with
  | ok pr =>
    cases pr with
    | mk lg folder => simp [hes]
  | error lg => simp [hes]

/-- With an active session the finalization writes the timeline
exactly once whatever step 2 did, throws (returning JS null) exactly
when an artifact write fails, and otherwise returns the folder. -/
theorem stopRest_writes (s : SysState) (tr : TraceStopOutcome) (fe : Bool)
    (p : Option TraceData) (tOk cOk : Bool) (now : String) (f : String)
    (ha : s.logger.isActive = true) (hf : s.logger.sessionFolder = some f) :
    (stopRest s tr fe p tOk cOk now).1.logger.timelineWrites =
      s.logger.timelineWrites + 1 ∧
    (tOk = false → (stopRest s tr fe p tOk cOk now).2 = none) ∧
    (tOk = true → (s.logger.consoleDump.isEmpty = true ∨ cOk = true) →
      (stopRest s tr fe p tOk cOk now).2 = some f) := by
  obtain ⟨hu, hst, hact, hsf, hw, hcd⟩ := stopStep2_facts s tr fe p now
  set st2 := stopStep2 s tr fe p now with hst2
  have ha2 : st2.logger.isActive = true := by rw [hact, ha]
  have hf2 : st2.logger.sessionFolder = some f := by rw [hsf, hf]
  obtain ⟨e1, e2, e3⟩ := endSession_active st2.logger f tOk cOk ha2 hf2
  cases tOk with
  | false =>
    have he := e1 rfl
    simp only [stopRest, ← hst2, he]
    refine ⟨by simp [hw], by simp, by simp⟩
  | true =>
    by_cases hde : st2.logger.consoleDump.isEmpty = true
    · have he := e3 rfl (Or.inl hde)
      simp only [stopRest, ← hst2, he]
      exact ⟨by simp [hw], by simp, by simp⟩
    · cases cOk with
      | false =>
        have he := e2 rfl (by simpa using hde) rfl
        simp only [stopRest, ← hst2, he]
        refine ⟨by simp [hw], by simp, ?_⟩
        intro _ h
        rcases h with h | h
        · rw [hcd] at hde
          exact absurd h hde
        · simp at h
      | true =>
        have he := e3 rfl (Or.inr rfl)
        simp only [stopRest, ← hst2, he]
        exact ⟨by simp [hw], by simp, by simp⟩

/-- Without an active session the finalization returns JS null and
writes nothing. -/
theorem stopRest_inactive (s : SysState) (tr : TraceStopOutcome) (fe : Bool)
    (p : Option TraceData) (tOk cOk : Bool) (now : String)
    (ha : s.logger.isActive = false) :
    (stopRest s tr fe p tOk cOk now).2 = none ∧
    (stopRest s tr fe p tOk cOk now).1.logger.timelineWrites =
      s.logger.timelineWrites := by
  obtain ⟨hu, hst, hact, hsf, hw, hcd⟩ := stopStep2_facts s tr fe p now
  set st2 := stopStep2 s tr fe p now with hst2
  have ha2 : st2.logger.isActive = false := by rw [hact, ha]
  have he := endSession_inactive st2.logger tOk cOk (Or.inl ha2)
  simp only [stopRest, ← hst2, he]
  exact ⟨by simp, by simp [hw]⟩

/-- C2: stop is at-most-once-effective. A call that observes the
stopping flag returns JS null immediately with no effect; a first call
raises the flag and lowers the recording flag synchronously before
its first await, so any re-entrant call during the whole stop
observes the raised flag and is a no-op; the trace file is deleted at
most once and the timeline flush is attempted exactly once for the
active session. -/
theorem stop_reentrancy (st : SysState) (tr : TraceStopOutcome) (fe : Bool)
    (p : Option TraceData) (tOk cOk : Bool) (now : String) :
    (st.isStopping = true → nodeStopRecording st tr fe p tOk cOk now = (st, none)) ∧
    (st.isStopping = false →
      nodeStopRecording st tr fe p tOk cOk now = stopRest (stopMid st) tr fe p tOk cOk now ∧
      (∀ (tr2 : TraceStopOutcome) (fe2 : Bool) (p2 : Option TraceData)
         (t2 c2 : Bool) (n2 : String),
        nodeStopRecording (stopMid st) tr2 fe2 p2 t2 c2 n2 = (stopMid st, none)) ∧
      (nodeStopRecording st tr fe p tOk cOk now).1.unlinkCalls ≤ st.unlinkCalls + 1 ∧
      (∀ f : String, st.logger.isActive = true → st.logger.sessionFolder = some f →
        (nodeStopRecording st tr fe p tOk cOk now).1.logger.timelineWrites =
          st.logger.timelineWrites + 1)) := by
  constructor
  · intro h
    simp [nodeStopRecording, h]
  · intro h
    have hmain : nodeStopRecording st tr fe p tOk cOk now =
        stopRest (stopMid st) tr fe p tOk cOk now := by
      simp [nodeStopRecording, h]
    refine ⟨hmain, ?_, ?_, ?_⟩
    · intro tr2 fe2 p2 t2 c2 n2
      simp [nodeStopRecording, stopMid]
    · rw [hmain]
      have h1 := (stopRest_proj (stopMid st) tr fe p tOk cOk now).1
      have h2 := (stopStep2_facts (stopMid st) tr fe p now).1
      rw [h1]
      simpa [stopMid] using h2
    · intro f ha hf
      rw [hmain]
      have := (stopRest_writes (stopMid st) tr fe p tOk cOk now f
        (by simpa [stopMid] using ha) (by simpa [stopMid] using hf)).1
      simpa [stopMid] using this

/-- Witness for C2: a guarded call is a no-op returning JS null, and
an unguarded call on an active session flushes once. -/
theorem stop_reentrancy_witness :
    nodeStopRecording
      { globalIsRecording := false
        isStopping := true
        currentTracePath := none
        logger := { sessionFolder := none, timeline := [], consoleDump := [],
                    isActive := false, timelineWrites := 0 }
        unlinkCalls := 0 }
      TraceStopOutcome.success false none true true "t" =
      ({ globalIsRecording := false
         isStopping := true
         currentTracePath := none
         logger := { sessionFolder := none, timeline := [], consoleDump := [],
                     isActive := false, timelineWrites := 0 }
         unlinkCalls := 0 }, none) ∧
    (nodeStopRecording
      { globalIsRecording := true
        isStopping := false
        currentTracePath := none
        logger := { sessionFolder := some "sess", timeline := [], consoleDump := [],
                    isActive := true, timelineWrites := 0 }
        unlinkCalls := 0 }
      TraceStopOutcome.success false none true true "t").1.logger.timelineWrites = 0 + 1 := by
  constructor
  · exact (stop_reentrancy _ TraceStopOutcome.success false none true true "t").1 rfl
  · exact ((stop_reentrancy _ TraceStopOutcome.success false none true true "t").2
      rfl).2.2.2 "sess" rfl rfl

/-- C7 (amended): for an unguarded stop with an active session, the
timeline flush is attempted exactly once whatever the tracing-stop,
summarization and trace-deletion steps did (timeout, parse error,
uncaught process exception, or success); the call returns JS null when
no session was active, and the folder exactly when the final artifact
writes (timeline, plus the console dump when non-empty) succeed. -/
theorem stop_flush_unconditional :
    (∀ (st : SysState) (tr : TraceStopOutcome) (fe : Bool) (p : Option TraceData)
       (tOk cOk : Bool) (now f : String),
      st.isStopping = false → st.logger.isActive = true →
      st.logger.sessionFolder = some f →
      (nodeStopRecording st tr fe p tOk cOk now).1.logger.timelineWrites =
          st.logger.timelineWrites + 1 ∧
      (tOk = false → (nodeStopRecording st tr fe p tOk cOk now).2 = none) ∧
      (tOk = true → (st.logger.consoleDump = [] ∨ cOk = true) →
          (nodeStopRecording st tr fe p tOk cOk now).2 = some f)) ∧
    (∀ (st : SysState) (tr : TraceStopOutcome) (fe : Bool) (p : Option TraceData)
       (tOk cOk : Bool) (now : String),
      st.isStopping = false → st.logger.isActive = false →
      (nodeStopRecording st tr fe p tOk cOk now).2 = none ∧
      (nodeStopRecording st tr fe p tOk cOk now).1.logger.timelineWrites =
        st.logger.timelineWrites) := by
  constructor
  · intro st tr fe p tOk cOk now f hstop ha hf
    have hmain : nodeStopRecording st tr fe p tOk cOk now =
        stopRest (stopMid st) tr fe p tOk cOk now := by
      simp [nodeStopRecording, hstop]
    obtain ⟨w1, w2, w3⟩ := stopRest_writes (stopMid st) tr fe p tOk cOk now f
      (by simpa [stopMid] using ha) (by simpa [stopMid] using hf)
    rw [hmain]
    refine ⟨by simpa [stopMid] using w1, w2, ?_⟩
    intro ht hc
    apply w3 ht
    rcases hc with hc | hc
    · left
      simp only [stopMid]
      rw [hc]
      rfl
    · right
      exact hc
  · intro st tr fe p tOk cOk now hstop ha
    have hmain : nodeStopRecording st tr fe p tOk cOk now =
        stopRest (stopMid st) tr fe p tOk cOk now := by
      simp [nodeStopRecording, hstop]
    obtain ⟨w1, w2⟩ := stopRest_inactive (stopMid st) tr fe p tOk cOk now
      (by simpa [stopMid] using ha)
    rw [hmain]
    exact ⟨w1, by simpa [stopMid] using w2⟩

/-- C7 (claim as frozen, to be refuted): with an active session whose
console dump is non-empty, a stop whose timeline write succeeds but
whose console-dump write fails returns JS null, not the session
folder — so a failing timeline write is not the only write failure
escalated to a null stop result. -/
theorem stop_console_write_counterexample :
    (nodeStopRecording
      { globalIsRecording := true
        isStopping := false
        currentTracePath := none
        logger := { sessionFolder := some "sess", timeline := []
                    consoleDump := [{ timestamp := "t", level := "log",
                                      message := "m", source := "" }]
                    isActive := true, timelineWrites := 0 }
        unlinkCalls := 0 }
      TraceStopOutcome.success false none true false "t1").2 = none ∧
    (nodeStopRecording
      { globalIsRecording := true
        isStopping := false
        currentTracePath := none
        logger := { sessionFolder := some "sess", timeline := []
                    consoleDump := [{ timestamp := "t", level := "log",
                                      message := "m", source := "" }]
                    isActive := true, timelineWrites := 0 }
        unlinkCalls := 0 }
      TraceStopOutcome.success false none true false "t1").2 ≠ some "sess" := by
  refine ⟨rfl, ?_⟩
  intro h
  have h2 : (none : Option String) = some "sess" := h
  simp at h2

/-- Witness for the amended C7: with an empty console dump and a
successful timeline write the folder is returned and the flush
happened once. -/
theorem stop_flush_unconditional_witness :
    (nodeStopRecording
      { globalIsRecording := true
        isStopping := false
        currentTracePath := none
        logger := { sessionFolder := some "sess", timeline := [], consoleDump := [],
                    isActive := true, timelineWrites := 0 }
        unlinkCalls := 0 }
      TraceStopOutcome.timeoutOrError false none true true "t1").2 = some "sess" ∧
    (nodeStopRecording
      { globalIsRecording := true
        isStopping := false
        currentTracePath := none
        logger := { sessionFolder := some "sess", timeline := [], consoleDump := [],
                    isActive := true, timelineWrites := 0 }
        unlinkCalls := 0 }
      TraceStopOutcome.timeoutOrError false none true true "t1").1.logger.timelineWrites = 0 + 1 := by
  obtain ⟨w1, w2, w3⟩ := stop_flush_unconditional.1
    { globalIsRecording := true
      isStopping := false
      currentTracePath := none
      logger := { sessionFolder := some "sess", timeline := [], consoleDump := [],
                  isActive := true, timelineWrites := 0 }
      unlinkCalls := 0 }
    TraceStopOutcome.timeoutOrError false none true true "t1" "sess" rfl rfl rfl
  exact ⟨w3 rfl (Or.inl rfl), w1⟩
